import Mathlib

/-!
Shallow embedding of the attendance-tracker core (server/routes.ts,
server/storage.ts, shared schema) and verification of its specification.

Modelling conventions:
* JS `Date` values are split into the pieces the code actually reads:
  epoch milliseconds (`getTime`, an integer), local time-of-day fields
  (`getHours` / `getMinutes`; `getSeconds` is never read), and the
  `YYYY-MM-DD` date string (`toISOString().split('T')[0]`).
* The JS `Map` of `MemStorage` preserves insertion order, `set` of a fresh
  key appends and `set` of an existing key updates in place; it is modelled
  as a `List AttendanceRecord` in insertion order.
* `totalHours` is stored by the code as the string `<number> + "h"` and is
  read back only through `parseFloat`, which recovers the numeric prefix;
  it is modelled as the numeric value, `Option ℚ` (`none` for SQL `null`).
  JS truthiness of the stored string (`record.totalHours`, non-empty hence
  truthy whenever non-null) is `Option.isSome`.
* `Math.round` (round half towards `+∞`) on the rationals produced here is
  `⌊q + 1/2⌋`.
-/

/-- Local time-of-day of a JS `Date`; `determineStatus` reads only
`getHours` and `getMinutes`, never `getSeconds`. -/
structure TimeOfDay where
  hour : Nat
  minute : Nat
  second : Nat
deriving DecidableEq, Repr

/-- The pieces of a JS `Date` ("now") that the handlers read. -/
structure Instant where
  millis : Int
  tod : TimeOfDay
  date : String
deriving DecidableEq, Repr

/-- `attendanceRecords` row (shared schema): `clockOutTime` and
`totalHours` are nullable, `status` is a free string column documented as
`active | completed | late`. -/
structure AttendanceRecord where
  id : String
  employeeName : String
  department : String
  clockInTime : Int
  clockOutTime : Option Int
  totalHours : Option ℚ
  status : String
  date : String
deriving DecidableEq, Repr

/-- Argument of `createAttendanceRecord` (the insert shape built by the
clock-in route: name, department, clock-in time, date and computed status). -/
structure InsertAttendance where
  employeeName : String
  department : String
  clockInTime : Int
  date : String
  status : String
deriving DecidableEq, Repr

/-- The department enumeration of `clockInSchema` (shared schema). -/
def departments : List String :=
  ["Tech Team Alpha", "Tech Team Charlie", "Human Resources Team",
   "Marketing Team", "Sales Team", "Founder's Office", "Content Factory",
   "Social Media & Content", "Customer Support", "Other"]

/-- Parsed clock-in payload (`ClockInData`). -/
structure ClockInData where
  employeeName : String
  department : String
deriving DecidableEq, Repr

/-- `clockInSchema.parse`: `employeeName` must be a string of length ≥ 1
(zod `min(1)`, no trimming), `department` must be in the enumeration. -/
def clockInSchemaParse (employeeName department : String) :
    Except String ClockInData :=
  if employeeName.length < 1 then .error "Employee name is required"
  else if departments.contains department then
    .ok ⟨employeeName, department⟩
  else .error "Invalid department"

/-- `clockOutSchema.parse`: `recordId` must have length ≥ 1. -/
def clockOutSchemaParse (recordId : String) : Except String String :=
  if recordId.length < 1 then .error "Record ID is required"
  else .ok recordId

/-- `Math.round` on the rationals this code produces: round half up. -/
def jsRound (q : ℚ) : ℤ := ⌊q + 1/2⌋

/-- routes.ts `calculateHours` (numeric part): the code returns
`Math.round(diffMs / 3600000 * 100) / 100 + "h"`; the model keeps the
numeric value that `parseFloat` recovers from the stored string. -/
def calculateHours (clockIn clockOut : Int) : ℚ :=
  let diffMs : ℚ := ((clockOut - clockIn : Int) : ℚ)
  let diffHours := diffMs / (1000 * 60 * 60)
  ((jsRound (diffHours * 100) : ℚ)) / 100

/-- routes.ts `determineStatus`: late iff `hour > 9 || (hour === 9 && minute > 15)`. -/
def determineStatus (t : TimeOfDay) : String :=
  if t.hour > 9 || (t.hour == 9 && t.minute > 15) then "late" else "active"

namespace MemStorage

/-- `MemStorage.createAttendanceRecord`: spreads the insert argument and
then overwrites `clockOutTime := null`, `totalHours := null`,
`status := "active"`; `Map.set` of the fresh id appends. -/
def createAttendanceRecord (id : String) (record : InsertAttendance)
    (s : List AttendanceRecord) : AttendanceRecord × List AttendanceRecord :=
  let attendanceRecord : AttendanceRecord :=
    { id := id
      employeeName := record.employeeName
      department := record.department
      clockInTime := record.clockInTime
      clockOutTime := none
      totalHours := none
      status := "active"
      date := record.date }
  (attendanceRecord, s ++ [attendanceRecord])

/-- `MemStorage.getAttendanceRecord`: `Map.get` by id. -/
def getAttendanceRecord (id : String) (s : List AttendanceRecord) :
    Option AttendanceRecord :=
  s.find? (fun r => r.id == id)

/-- `MemStorage.updateAttendanceRecord` restricted to a found record:
`Map.set` on an existing key replaces the entry in place. -/
def replaceById (id : String) (r' : AttendanceRecord)
    (s : List AttendanceRecord) : List AttendanceRecord :=
  s.map (fun x => if x.id == id then r' else x)

/-- `MemStorage.getActiveAttendanceRecord`: first record (insertion order)
with matching employee name, matching date and `status === "active"`
(a record whose status is `"late"` is NOT matched). -/
def getActiveAttendanceRecord (employeeName date : String)
    (s : List AttendanceRecord) : Option AttendanceRecord :=
  s.find? (fun r =>
    r.employeeName == employeeName && r.date == date && r.status == "active")

end MemStorage

namespace DatabaseStorage

/-- `DatabaseStorage.createAttendanceRecord`: inserts the spread of the
argument with `clockOutTime: null`, `totalHours: null`, `status: "active"`;
the database generates the id. -/
def createAttendanceRecord (genId : String) (record : InsertAttendance)
    (table : List AttendanceRecord) :
    AttendanceRecord × List AttendanceRecord :=
  let attendanceRecord : AttendanceRecord :=
    { id := genId
      employeeName := record.employeeName
      department := record.department
      clockInTime := record.clockInTime
      clockOutTime := none
      totalHours := none
      status := "active"
      date := record.date }
  (attendanceRecord, table ++ [attendanceRecord])

end DatabaseStorage

/-- Outcome of the clock-in route. -/
inductive ClockInResult where
  | validationError (message : String)
  | duplicate (recordId : String)
  | ok (record : AttendanceRecord)
deriving DecidableEq, Repr

/-- The clock-in route handler: parse, duplicate check against
`getActiveAttendanceRecord`, `determineStatus`, create and persist.
`now` is the request instant, `freshId` the generated UUID. -/
def clockIn (employeeName department : String) (now : Instant)
    (freshId : String) (s : List AttendanceRecord) :
    ClockInResult × List AttendanceRecord :=
  match clockInSchemaParse employeeName department with
  | .error msg => (.validationError msg, s)
  | .ok data =>
    match MemStorage.getActiveAttendanceRecord data.employeeName now.date s with
    | some existingRecord => (.duplicate existingRecord.id, s)
    | none =>
      let status := determineStatus now.tod
      let created := MemStorage.createAttendanceRecord freshId
        { employeeName := data.employeeName
          department := data.department
          clockInTime := now.millis
          date := now.date
          status := status } s
      (.ok created.1, created.2)

/-- Outcome of the clock-out route. -/
inductive ClockOutResult where
  | validationError (message : String)
  | notFound
  | alreadyClockedOut
  | ok (record : AttendanceRecord)
deriving DecidableEq, Repr

/-- The record written by a successful clock-out at instant `t`:
`clockOutTime := t`, `totalHours := calculateHours`, `status := "completed"`. -/
def closeRecord (r : AttendanceRecord) (t : Int) : AttendanceRecord :=
  { r with
    clockOutTime := some t
    totalHours := some (calculateHours r.clockInTime t)
    status := "completed" }

/-- The clock-out route handler: parse, lookup by id (404 if absent),
reject if `clockOutTime` already present, else compute hours, set status
`completed` and persist the update. -/
def clockOut (recordId : String) (now : Int) (s : List AttendanceRecord) :
    ClockOutResult × List AttendanceRecord :=
  match clockOutSchemaParse recordId with
  | .error msg => (.validationError msg, s)
  | .ok rid =>
    match MemStorage.getAttendanceRecord rid s with
    | none => (.notFound, s)
    | some record =>
      if record.clockOutTime.isSome then (.alreadyClockedOut, s)
      else
        let updated := closeRecord record now
        (.ok updated, MemStorage.replaceById record.id updated s)

/-- Filter shape of `getAttendanceRecordsByFilters`. -/
structure Filters where
  employeeName : Option String := none
  department : Option String := none
  date : Option String := none
  minHours : Option ℚ := none

/-- JS `hay.includes(pat)`: `pat` occurs contiguously in `hay`. -/
def strIncludes (hay pat : String) : Bool :=
  (List.range (hay.length + 1)).any
    (fun i => (hay.toList.drop i).take pat.length == pat.toList)

namespace MemStorage

/-- `if (filters.employeeName)` branch: applied only when the field is a
truthy (non-empty) string; case-insensitive substring match. -/
def applyNameFilter (o : Option String) (records : List AttendanceRecord) :
    List AttendanceRecord :=
  match o with
  | none => records
  | some n =>
    if n.length = 0 then records
    else records.filter (fun r => strIncludes r.employeeName.toLower n.toLower)

/-- `if (filters.department)` branch: exact match, applied when truthy. -/
def applyDeptFilter (o : Option String) (records : List AttendanceRecord) :
    List AttendanceRecord :=
  match o with
  | none => records
  | some d =>
    if d.length = 0 then records
    else records.filter (fun r => r.department == d)

/-- `if (filters.date)` branch: exact match, applied when truthy. -/
def applyDateFilter (o : Option String) (records : List AttendanceRecord) :
    List AttendanceRecord :=
  match o with
  | none => records
  | some d =>
    if d.length = 0 then records
    else records.filter (fun r => r.date == d)

/-- `if (filters.minHours)` branch: applied only when the number is truthy,
i.e. non-zero (minHours = 0 skips the filter); keeps records whose
`totalHours` is non-null and whose parsed value is `>= minHours`. -/
def applyMinHoursFilter (o : Option ℚ) (records : List AttendanceRecord) :
    List AttendanceRecord :=
  match o with
  | none => records
  | some m =>
    if m = 0 then records
    else records.filter (fun r =>
      match r.totalHours with
      | none => false
      | some hours => decide (m ≤ hours))

/-- The filtering stages of `getAttendanceRecordsByFilters` before the sort,
in the code's order: name, department, date, minHours. -/
def filteredRecords (f : Filters) (s : List AttendanceRecord) :
    List AttendanceRecord :=
  applyMinHoursFilter f.minHours
    (applyDateFilter f.date (applyDeptFilter f.department (applyNameFilter f.employeeName s)))

/-- One step of the stable descending sort on `clockInTime`
(`records.sort((a, b) => b.clockInTime - a.clockInTime)`; ES2019 `sort`
is stable): insert `r` before the first element not strictly more recent. -/
def insertDesc (r : AttendanceRecord) : List AttendanceRecord → List AttendanceRecord
  | [] => [r]
  | x :: xs =>
    if r.clockInTime < x.clockInTime then x :: insertDesc r xs
    else r :: x :: xs

/-- Stable sort, descending by `clockInTime`, ties in insertion order. -/
def sortByClockInDesc : List AttendanceRecord → List AttendanceRecord
  | [] => []
  | r :: rs => insertDesc r (sortByClockInDesc rs)

/-- `MemStorage.getAttendanceRecordsByFilters`: conjunctive filters, then
sort descending by `clockInTime`. -/
def getAttendanceRecordsByFilters (f : Filters) (s : List AttendanceRecord) :
    List AttendanceRecord :=
  sortByClockInDesc (filteredRecords f s)

end MemStorage

/-- Result shape of `getAttendanceStatistics`. -/
structure AttendanceStats where
  totalEmployees : Nat
  currentlyActive : Nat
  lateToday : Nat
  avgHoursToday : ℚ
deriving DecidableEq, Repr

namespace MemStorage

/-- `MemStorage.getAttendanceStatistics`, scoped to records with
`date === today`: distinct employee names, counts of status `"active"` and
`"late"`, and the mean of `parseFloat(totalHours)` over records with a
truthy `totalHours`, `Math.round`ed to 1 decimal (0 when none). -/
def getAttendanceStatistics (today : String) (s : List AttendanceRecord) :
    AttendanceStats :=
  let todayRecords := s.filter (fun r => r.date == today)
  let uniqueEmployees := (todayRecords.map (fun r => r.employeeName)).dedup
  let activeRecords := todayRecords.filter (fun r => r.status == "active")
  let lateRecords := todayRecords.filter (fun r => r.status == "late")
  let completedRecords := todayRecords.filter (fun r => r.totalHours.isSome)
  let totalHours : ℚ :=
    completedRecords.foldl (fun sum r => sum + (r.totalHours.getD 0)) 0
  let avgHours : ℚ :=
    if completedRecords.length > 0 then totalHours / completedRecords.length
    else 0
  { totalEmployees := uniqueEmployees.length
    currentlyActive := activeRecords.length
    lateToday := lateRecords.length
    avgHoursToday := ((jsRound (avgHours * 10) : ℚ)) / 10 }

end MemStorage

namespace MemStorage

/-- Descending comparison used by the sort: `a` is at least as recent as `b`. -/
def geByClockIn (a b : AttendanceRecord) : Prop :=
  b.clockInTime ≤ a.clockInTime

theorem insertDesc_perm (r : AttendanceRecord) (l : List AttendanceRecord) :
    (insertDesc r l).Perm (r :: l) := by
  induction l with
  | nil => simp [insertDesc]
  | cons x xs ih =>
    by_cases h : r.clockInTime < x.clockInTime
    · simpa [insertDesc, h] using (ih.cons x).trans (List.Perm.swap r x xs)
    · simp [insertDesc, h]

theorem sortByClockInDesc_perm (l : List AttendanceRecord) :
    (sortByClockInDesc l).Perm l := by
  induction l with
  | nil => simp [sortByClockInDesc]
  | cons r rs ih =>
    exact (insertDesc_perm r (sortByClockInDesc rs)).trans (ih.cons r)

theorem mem_insertDesc {y r : AttendanceRecord} {l : List AttendanceRecord} :
    y ∈ insertDesc r l ↔ y = r ∨ y ∈ l := by
  rw [(insertDesc_perm r l).mem_iff]
  simp

theorem pairwise_insertDesc {r : AttendanceRecord} {l : List AttendanceRecord}
    (h : l.Pairwise geByClockIn) :
    (insertDesc r l).Pairwise geByClockIn := by
  induction l with
  | nil => simp [insertDesc, List.Pairwise.nil]
  | cons x xs ih =>
    rcases List.pairwise_cons.mp h with ⟨hx, hxs⟩
    by_cases hlt : r.clockInTime < x.clockInTime
    · simp only [insertDesc, if_pos hlt]
      refine List.pairwise_cons.mpr ⟨?_, ih hxs⟩
      intro y hy
      rcases mem_insertDesc.mp hy with rfl | hy
      · exact le_of_lt hlt
      · exact hx y hy
    · simp only [insertDesc, if_neg hlt]
      refine List.pairwise_cons.mpr ⟨?_, h⟩
      intro y hy
      rcases List.mem_cons.mp hy with rfl | hy
      · exact le_of_not_lt hlt
      · exact le_trans (hx y hy) (le_of_not_lt hlt)

theorem pairwise_sortByClockInDesc (l : List AttendanceRecord) :
    (sortByClockInDesc l).Pairwise geByClockIn := by
  induction l with
  | nil => simp [sortByClockInDesc, List.Pairwise.nil]
  | cons r rs ih => exact pairwise_insertDesc ih

theorem filter_insertDesc_eq {r : AttendanceRecord} {k : Int}
    (l : List AttendanceRecord) (hk : r.clockInTime = k) :
    (insertDesc r l).filter (fun x => x.clockInTime == k)
      = r :: l.filter (fun x => x.clockInTime == k) := by
  induction l with
  | nil => simp [insertDesc, List.filter, hk]
  | cons x xs ih =>
    by_cases hlt : r.clockInTime < x.clockInTime
    · have hx : (x.clockInTime == k) = false := by
        apply beq_eq_false_iff_ne.mpr
        intro hxk
        rw [hxk, ← hk] at hlt
        exact lt_irrefl _ hlt
      simp only [insertDesc, if_pos hlt, List.filter_cons, hx]
      simpa using ih
    · simp only [insertDesc, if_neg hlt]
      rw [List.filter_cons, List.filter_cons]
      simp [hk]

theorem filter_insertDesc_ne {r : AttendanceRecord} {k : Int}
    (l : List AttendanceRecord) (hk : r.clockInTime ≠ k) :
    (insertDesc r l).filter (fun x => x.clockInTime == k)
      = l.filter (fun x => x.clockInTime == k) := by
  induction l with
  | nil => simp [insertDesc, List.filter_cons, hk]
  | cons x xs ih =>
    by_cases hlt : r.clockInTime < x.clockInTime
    · simp only [insertDesc, if_pos hlt, List.filter_cons]
      rw [ih]
    · simp only [insertDesc, if_neg hlt]
      rw [List.filter_cons, List.filter_cons]
      simp [hk]

theorem filter_sortByClockInDesc (l : List AttendanceRecord) (k : Int) :
    (sortByClockInDesc l).filter (fun x => x.clockInTime == k)
      = l.filter (fun x => x.clockInTime == k) := by
  induction l with
  | nil => simp [sortByClockInDesc]
  | cons r rs ih =>
    by_cases hk : r.clockInTime = k
    · rw [sortByClockInDesc, filter_insertDesc_eq _ hk, ih, List.filter_cons]
      simp [hk]
    · rw [sortByClockInDesc, filter_insertDesc_ne _ hk, ih, List.filter_cons]
      simp [hk]

end MemStorage

theorem string_length_eq_zero_iff (s : String) : s.length = 0 ↔ s = "" := by
  constructor
  · intro h
    cases s with
    | mk data =>
      cases data with
      | nil => rfl
      | cons c cs => simp [String.length] at h
  · intro h; simp [h]

namespace MemStorage

theorem find?_replaceById (rid : String) (r' : AttendanceRecord)
    (s : List AttendanceRecord) (r : AttendanceRecord)
    (hfound : s.find? (fun x => x.id == rid) = some r)
    (hid : (r'.id == rid) = true) :
    (replaceById rid r' s).find? (fun x => x.id == rid) = some r' := by
  induction s with
  | nil => simp [List.find?] at hfound
  | cons x xs ih =>
    by_cases hx : (x.id == rid) = true
    · have h1 : replaceById rid r' (x :: xs) = r' :: replaceById rid r' xs := by
        simp only [replaceById, List.map_cons, if_pos hx]
      rw [h1]
      exact List.find?_cons_of_pos _ hid
    · have hx' : (x.id == rid) = false := by
        simpa using hx
      rw [List.find?_cons_of_neg _ (by simp [hx'])] at hfound
      have h1 : replaceById rid r' (x :: xs) = x :: replaceById rid r' xs := by
        simp only [replaceById, List.map_cons, hx']
        simp
      rw [h1, List.find?_cons_of_neg _ (by simp [hx'])]
      exact ih hfound

theorem replaceById_of_absent (rid : String) (r' : AttendanceRecord)
    (s : List AttendanceRecord) (h : ∀ x ∈ s, x.id ≠ rid) :
    replaceById rid r' s = s := by
  induction s with
  | nil => rfl
  | cons x xs ih =>
    have hx : (x.id == rid) = false := by
      simpa using h x (List.mem_cons_self x xs)
    simp only [replaceById, List.map_cons, hx]
    simp only [Bool.false_eq_true, if_false]
    have := ih (fun y hy => h y (List.mem_cons_of_mem x hy))
    simpa [replaceById] using this

end MemStorage

theorem foldl_add_eq_sum (f : AttendanceRecord → ℚ)
    (l : List AttendanceRecord) (init : ℚ) :
    l.foldl (fun sum r => sum + f r) init = init + (l.map f).sum := by
  induction l generalizing init with
  | nil => simp
  | cons x xs ih => simp [ih, add_assoc]

/-- C10: for every insert argument — also one with status `"late"` — both
`MemStorage.createAttendanceRecord` and `DatabaseStorage.createAttendanceRecord`
store and return a record with status `"active"`, `clockOutTime` null and
`totalHours` null: the caller's status field is overwritten at creation. -/
theorem C10_create_overwrites_status (id : String) (record : InsertAttendance)
    (s tbl : List AttendanceRecord) :
    ((MemStorage.createAttendanceRecord id record s).1.status = "active" ∧
     (MemStorage.createAttendanceRecord id record s).1.clockOutTime = none ∧
     (MemStorage.createAttendanceRecord id record s).1.totalHours = none ∧
     (MemStorage.createAttendanceRecord id record s).2
        = s ++ [(MemStorage.createAttendanceRecord id record s).1]) ∧
    ((DatabaseStorage.createAttendanceRecord id record tbl).1.status = "active" ∧
     (DatabaseStorage.createAttendanceRecord id record tbl).1.clockOutTime = none ∧
     (DatabaseStorage.createAttendanceRecord id record tbl).1.totalHours = none ∧
     (DatabaseStorage.createAttendanceRecord id record tbl).2
        = tbl ++ [(DatabaseStorage.createAttendanceRecord id record tbl).1]) ∧
    (MemStorage.createAttendanceRecord id
        { record with status := "late" } s).1.status = "active" ∧
    (DatabaseStorage.createAttendanceRecord id
        { record with status := "late" } tbl).1.status = "active" :=
  ⟨⟨rfl, rfl, rfl, rfl⟩, ⟨rfl, rfl, rfl, rfl⟩, rfl, rfl⟩

/-- A clock-in instant at local time 10:00:00, after the 09:15 cutoff. -/
def tenAMInstant : Instant :=
  { millis := 36000000, tod := ⟨10, 0, 0⟩, date := "2026-10-11" }

/-- C1 (code bug evaluation): a valid clock-in at 10:00 local time — for
which `determineStatus` yields `"late"` — creates and returns a session
whose persisted status is `"active"`, because `createAttendanceRecord`
overwrites the status computed by the route. -/
theorem C1_late_clockin_persists_active :
    determineStatus tenAMInstant.tod = "late" ∧
    clockIn "Alice" "Sales Team" tenAMInstant "id-1" [] =
      (ClockInResult.ok
        { id := "id-1", employeeName := "Alice", department := "Sales Team",
          clockInTime := 36000000, clockOutTime := none, totalHours := none,
          status := "active", date := "2026-10-11" },
       [{ id := "id-1", employeeName := "Alice", department := "Sales Team",
          clockInTime := 36000000, clockOutTime := none, totalHours := none,
          status := "active", date := "2026-10-11" }]) := by
  exact ⟨rfl, rfl⟩

/-- Seconds since midnight, to compare time-of-day instants. -/
def TimeOfDay.toSeconds (t : TimeOfDay) : Nat :=
  t.hour * 3600 + t.minute * 60 + t.second

/-- C2 counterexample: 09:15:01 is strictly after 09:15:00, yet
`determineStatus` returns `"active"` there, not `"late"` as the claim
states — the code never reads seconds, so the whole minute 09:15 is
on-time. -/
theorem C2_strict_cutoff_counterexample :
    TimeOfDay.toSeconds ⟨9, 15, 1⟩ > TimeOfDay.toSeconds ⟨9, 15, 0⟩ ∧
    determineStatus ⟨9, 15, 1⟩ = "active" ∧
    determineStatus ⟨9, 15, 1⟩ ≠ "late" := by
  refine ⟨by decide, rfl, by decide⟩

/-- C2 amended: the determined status is `"late"` iff `hour > 9` or
(`hour = 9` and `minute > 15`); seconds are ignored, so 09:15:00 and
09:15:01 both yield `"active"` (lateness begins at 09:16:00), and
09:00:00 yields `"active"`. -/
theorem C2_cutoff_amended (t : TimeOfDay) :
    (determineStatus t = "late" ↔ (9 < t.hour ∨ (t.hour = 9 ∧ 15 < t.minute))) ∧
    determineStatus ⟨9, 15, 0⟩ = "active" ∧
    determineStatus ⟨9, 15, 1⟩ = "active" ∧
    determineStatus ⟨9, 15, 59⟩ = "active" ∧
    determineStatus ⟨9, 16, 0⟩ = "late" ∧
    determineStatus ⟨9, 0, 0⟩ = "active" := by
  refine ⟨?_, rfl, rfl, rfl, rfl, rfl⟩
  unfold determineStatus
  split
  · rename_i h
    simp only [Bool.or_eq_true, decide_eq_true_eq, Bool.and_eq_true,
      beq_iff_eq] at h
    exact iff_of_true rfl h
  · rename_i h
    simp only [Bool.or_eq_true, decide_eq_true_eq, Bool.and_eq_true,
      beq_iff_eq, not_or, not_and, not_lt] at h
    refine iff_of_false (by decide) ?_
    rcases h with ⟨h1, h2⟩
    rintro (h3 | ⟨h3, h4⟩)
    · omega
    · have := h2 h3
      omega

/-- C9 counterexample: the employee name `" "` (one space) is empty after
trimming — it consists only of whitespace — yet the clock-in validation
accepts it (zod `min(1)` checks raw length and does not trim), and the
clock-in proceeds to create a session instead of failing with a
ValidationError. -/
theorem C9_whitespace_name_counterexample :
    (" ".toList.all Char.isWhitespace) = true ∧
    clockInSchemaParse " " "Sales Team" = .ok ⟨" ", "Sales Team"⟩ ∧
    (clockIn " " "Sales Team" ⟨36000000, ⟨10, 0, 0⟩, "2026-10-11"⟩ "id-9" []).1 =
      ClockInResult.ok
        { id := "id-9", employeeName := " ", department := "Sales Team",
          clockInTime := 36000000, clockOutTime := none, totalHours := none,
          status := "active", date := "2026-10-11" } :=
  ⟨rfl, rfl, rfl⟩

/-- C9 amended: clock-in validation fails iff the raw `employeeName` is the
empty string (no trimming: whitespace-only names are accepted) or the
department is outside the ten-value enumeration; clock-out validation fails
iff `recordId` is empty; and on each validation failure the stored state is
unchanged — no session is created or mutated. -/
theorem C9_validation_amended (name dept rid : String) (now : Instant)
    (fid : String) (t : Int) (s : List AttendanceRecord) :
    ((∃ msg, clockInSchemaParse name dept = .error msg) ↔
      (name = "" ∨ dept ∉ departments)) ∧
    (∀ msg, clockInSchemaParse name dept = .error msg →
      clockIn name dept now fid s = (.validationError msg, s)) ∧
    (rid = "" → clockOut rid t s = (.validationError "Record ID is required", s)) := by
  refine ⟨?_, ?_, ?_⟩
  · unfold clockInSchemaParse
    by_cases h1 : name.length < 1
    · have hname : name = "" := (string_length_eq_zero_iff name).mp (by omega)
      simp [h1, hname]
    · have hname : ¬ name = "" := by
        intro h
        rw [h] at h1
        exact h1 (by decide)
      by_cases h2 : departments.contains name = true
      · by_cases h3 : departments.contains dept = true
        · have hmem : dept ∈ departments := by
            simpa using h3
          simp [h1, h3, hname, hmem]
        · have hmem : dept ∉ departments := by
            simpa using h3
          simp [h1, h3, hname, hmem]
      · by_cases h3 : departments.contains dept = true
        · have hmem : dept ∈ departments := by
            simpa using h3
          simp [h1, h3, hname, hmem]
        · have hmem : dept ∉ departments := by
            simpa using h3
          simp [h1, h3, hname, hmem]
  · intro msg hmsg
    simp [clockIn, hmsg]
  · intro hrid
    have : clockOutSchemaParse rid = .error "Record ID is required" := by
      simp [clockOutSchemaParse, hrid]
    simp [clockOut, this]

/-- C9 amended, evaluated at concrete inputs: empty name and unknown
department are rejected with the state untouched, and an empty record id is
rejected by clock-out with the state untouched. -/
theorem C9_validation_amended_witness :
    ((∃ msg, clockInSchemaParse "" "Nope" = .error msg) ↔
      ("" = "" ∨ "Nope" ∉ departments)) ∧
    (∀ msg, clockInSchemaParse "" "Nope" = .error msg →
      clockIn "" "Nope" ⟨0, ⟨9, 0, 0⟩, "2026-10-11"⟩ "id-w" [] =
        (.validationError msg, [])) ∧
    ("" = "" → clockOut "" 0 [] =
      (.validationError "Record ID is required", [])) :=
  C9_validation_amended "" "Nope" "" ⟨0, ⟨9, 0, 0⟩, "2026-10-11"⟩ "id-w" 0 []

/-- An open session with absent `totalHours`, used against the minHours filter. -/
def openSessionNoHours : AttendanceRecord :=
  { id := "c6", employeeName := "Bob", department := "Other",
    clockInTime := 0, clockOutTime := none, totalHours := none,
    status := "active", date := "2026-10-11" }

/-- C6 counterexample: with `minHours = 0` supplied, a session whose
`totalHours` is absent is still returned — `if (filters.minHours)` is
falsy at 0, so the filter is skipped — contradicting the claim that every
session with absent `totalHours` is excluded whenever minHours is supplied. -/
theorem C6_minHours_zero_counterexample :
    openSessionNoHours.totalHours = none ∧
    MemStorage.getAttendanceRecordsByFilters { minHours := some 0 }
      [openSessionNoHours] = [openSessionNoHours] :=
  ⟨rfl, rfl⟩

/-- C6 amended: when `minHours` is supplied with a NONZERO value, the
result holds exactly the sessions that pass the other supplied filters and
whose `totalHours` is present and `≥ minHours` (absent or too-small
`totalHours` is excluded); `minHours = 0` is falsy in JS and disables the
filter, so sessions with absent `totalHours` can then be returned. -/
theorem C6_minHours_amended (f : Filters) (m : ℚ) (s : List AttendanceRecord)
    (hm : f.minHours = some m) (hm0 : m ≠ 0) (r : AttendanceRecord) :
    r ∈ MemStorage.getAttendanceRecordsByFilters f s ↔
      (r ∈ MemStorage.applyDateFilter f.date
            (MemStorage.applyDeptFilter f.department
              (MemStorage.applyNameFilter f.employeeName s)) ∧
       ∃ h, r.totalHours = some h ∧ m ≤ h) := by
  unfold MemStorage.getAttendanceRecordsByFilters
  rw [(MemStorage.sortByClockInDesc_perm _).mem_iff]
  unfold MemStorage.filteredRecords
  rw [hm]
  simp only [MemStorage.applyMinHoursFilter, if_neg hm0]
  rw [List.mem_filter]
  constructor
  · rintro ⟨hbase, hp⟩
    refine ⟨hbase, ?_⟩
    cases hth : r.totalHours with
    | none => rw [hth] at hp; simp at hp
    | some hours =>
      rw [hth] at hp
      simp only [decide_eq_true_eq] at hp
      exact ⟨hours, rfl, hp⟩
  · rintro ⟨hbase, h, hth, hle⟩
    refine ⟨hbase, ?_⟩
    rw [hth]
    simpa using hle

/-- A completed session with 8 stored hours, for the minHours witness. -/
def completedSession8h : AttendanceRecord :=
  { id := "c6w", employeeName := "Eve", department := "Other",
    clockInTime := 0, clockOutTime := some 28800000, totalHours := some 8,
    status := "completed", date := "2026-10-11" }

/-- C6 amended, evaluated: with `minHours = 6`, the completed 8-hour
session is in the result and the characterisation holds concretely. -/
theorem C6_minHours_amended_witness :
    completedSession8h ∈ MemStorage.getAttendanceRecordsByFilters
        { minHours := some 6 } [openSessionNoHours, completedSession8h] ↔
      (completedSession8h ∈ MemStorage.applyDateFilter none
            (MemStorage.applyDeptFilter none
              (MemStorage.applyNameFilter none
                [openSessionNoHours, completedSession8h])) ∧
       ∃ h, completedSession8h.totalHours = some h ∧ 6 ≤ h) :=
  C6_minHours_amended { minHours := some 6 } 6
    [openSessionNoHours, completedSession8h] rfl (by decide) completedSession8h

/-- Session clocked in at 09:00 (UTC millis of day). -/
def sessionAt0900 : AttendanceRecord :=
  { id := "s9", employeeName := "P", department := "Other",
    clockInTime := 32400000, clockOutTime := none, totalHours := none,
    status := "active", date := "2026-10-11" }

/-- Session clocked in at 10:00. -/
def sessionAt1000 : AttendanceRecord :=
  { id := "s10", employeeName := "Q", department := "Other",
    clockInTime := 36000000, clockOutTime := none, totalHours := none,
    status := "active", date := "2026-10-11" }

/-- Session clocked in at 08:00. -/
def sessionAt0800 : AttendanceRecord :=
  { id := "s8", employeeName := "R", department := "Other",
    clockInTime := 28800000, clockOutTime := none, totalHours := none,
    status := "active", date := "2026-10-11" }

/-- C7: `getAttendanceRecordsByFilters` returns a permutation of the
filtered sessions that is pairwise descending in `clockInTime`, and the
sort is stable: for every timestamp the records carrying it appear in the
same (insertion) order as before sorting, so equal timestamps are
tie-broken by insertion order and the order is deterministic. Sessions
clocked in at 09:00, 10:00, 08:00 come back as [10:00, 09:00, 08:00]. -/
theorem C7_result_ordering (f : Filters) (s : List AttendanceRecord) :
    (MemStorage.getAttendanceRecordsByFilters f s).Perm
      (MemStorage.filteredRecords f s) ∧
    (MemStorage.getAttendanceRecordsByFilters f s).Pairwise
      MemStorage.geByClockIn ∧
    (∀ k : Int, (MemStorage.getAttendanceRecordsByFilters f s).filter
        (fun r => r.clockInTime == k)
      = (MemStorage.filteredRecords f s).filter (fun r => r.clockInTime == k)) ∧
    MemStorage.getAttendanceRecordsByFilters {}
        [sessionAt0900, sessionAt1000, sessionAt0800]
      = [sessionAt1000, sessionAt0900, sessionAt0800] :=
  ⟨MemStorage.sortByClockInDesc_perm _,
   MemStorage.pairwise_sortByClockInDesc _,
   fun k => MemStorage.filter_sortByClockInDesc _ k,
   rfl⟩

/-- C4: with a non-empty record id, clock-out fails with NotFound when no
session has that id and with AlreadyClockedOut when the session's
`clockOutTime` is already present, each failure leaving the store
unchanged; on an open session the first clock-out succeeds and a second
clock-out of the same record fails with AlreadyClockedOut, again leaving
the store unchanged. -/
theorem C4_clockout_errors (rid : String) (t t2 : Int)
    (s : List AttendanceRecord) (r : AttendanceRecord)
    (hrid : 1 ≤ rid.length) :
    (MemStorage.getAttendanceRecord rid s = none →
      clockOut rid t s = (.notFound, s)) ∧
    (MemStorage.getAttendanceRecord rid s = some r →
      r.clockOutTime.isSome = true →
      clockOut rid t s = (.alreadyClockedOut, s)) ∧
    (MemStorage.getAttendanceRecord rid s = some r →
      r.clockOutTime = none →
      clockOut rid t s =
        (.ok (closeRecord r t),
         MemStorage.replaceById r.id (closeRecord r t) s) ∧
      clockOut rid t2 (MemStorage.replaceById r.id (closeRecord r t) s) =
        (.alreadyClockedOut,
         MemStorage.replaceById r.id (closeRecord r t) s)) := by
  have hparse : clockOutSchemaParse rid = .ok rid := by
    unfold clockOutSchemaParse
    rw [if_neg (by omega)]
  refine ⟨?_, ?_, ?_⟩
  · intro hnone
    simp [clockOut, hparse, hnone]
  · intro hsome hclosed
    simp [clockOut, hparse, hsome, hclosed]
  · intro hsome hopen
    have hcl : r.clockOutTime.isSome = false := by simp [hopen]
    have hsome' : s.find? (fun x => x.id == rid) = some r := hsome
    have hid := List.find?_some hsome'
    have hrid_eq : r.id = rid := by simpa using hid
    constructor
    · simp [clockOut, hparse, hsome, hcl]
    · have hfind2 : MemStorage.getAttendanceRecord rid
          (MemStorage.replaceById r.id (closeRecord r t) s)
          = some (closeRecord r t) := by
        rw [hrid_eq]
        exact MemStorage.find?_replaceById rid (closeRecord r t) s r hsome'
          (by simp [closeRecord, hrid_eq])
      simp only [clockOut, hparse]
      rw [hfind2]
      simp [closeRecord]

/-- C4, evaluated on a store that does hold the open session: the first
clock-out succeeds and the second one fails with AlreadyClockedOut. -/
theorem C4_clockout_twice_witness :
    clockOut "c6" 5 [openSessionNoHours] =
      (.ok (closeRecord openSessionNoHours 5),
       MemStorage.replaceById openSessionNoHours.id
         (closeRecord openSessionNoHours 5) [openSessionNoHours]) ∧
    clockOut "c6" 7 (MemStorage.replaceById openSessionNoHours.id
        (closeRecord openSessionNoHours 5) [openSessionNoHours]) =
      (.alreadyClockedOut,
       MemStorage.replaceById openSessionNoHours.id
         (closeRecord openSessionNoHours 5) [openSessionNoHours]) :=
  (C4_clockout_errors "c6" 5 7 [openSessionNoHours] openSessionNoHours
    (by decide)).2.2 rfl rfl

/-- C5: a successful clock-out stores status `"completed"`, `clockOutTime`
and `totalHours = calculateHours`; `100 · totalHours` is exactly the
`Math.round` integer of the duration-in-hours times 100 (so the value has
two-decimal precision and is reproducible as a number), the value is
within 1/200 of the exact duration in hours, and a session closed exactly
2h30m after clock-in gets `totalHours = 2.5`. -/
theorem C5_total_hours (rid : String) (t : Int) (s : List AttendanceRecord)
    (r : AttendanceRecord) (hrid : 1 ≤ rid.length)
    (hfind : MemStorage.getAttendanceRecord rid s = some r)
    (hopen : r.clockOutTime = none) :
    (clockOut rid t s).1 = .ok (closeRecord r t) ∧
    (closeRecord r t).status = "completed" ∧
    (closeRecord r t).clockOutTime = some t ∧
    (closeRecord r t).totalHours = some (calculateHours r.clockInTime t) ∧
    calculateHours r.clockInTime t * 100
      = ((jsRound (((t - r.clockInTime : Int) : ℚ) / 3600000 * 100) : ℤ) : ℚ) ∧
    |calculateHours r.clockInTime t - ((t - r.clockInTime : Int) : ℚ) / 3600000|
      ≤ 1 / 200 ∧
    calculateHours r.clockInTime (r.clockInTime + 9000000) = 5 / 2 := by
  have hparse : clockOutSchemaParse rid = .ok rid := by
    unfold clockOutSchemaParse
    rw [if_neg (by omega)]
  have hcl : r.clockOutTime.isSome = false := by simp [hopen]
  refine ⟨?_, rfl, rfl, rfl, ?_, ?_, ?_⟩
  · simp [clockOut, hparse, hfind, hcl]
  · unfold calculateHours
    rw [div_mul_cancel₀]
    · norm_num
    · norm_num
  · unfold calculateHours jsRound
    have hnum : ((1000 : ℚ) * 60 * 60) = 3600000 := by norm_num
    rw [hnum]
    set d : ℚ := ((t - r.clockInTime : Int) : ℚ) / 3600000 with hd
    have h1 : ((⌊d * 100 + 1/2⌋ : ℤ) : ℚ) ≤ d * 100 + 1/2 := Int.floor_le _
    have h2 : d * 100 + 1/2 < ((⌊d * 100 + 1/2⌋ : ℤ) : ℚ) + 1 :=
      Int.lt_floor_add_one _
    rw [abs_le]
    constructor
    · linarith
    · linarith
  · norm_num [calculateHours, jsRound]

/-- C5, evaluated: clocking out the open session (clock-in at millis 0)
at millis 9000000 (= 2h30m later) yields status completed and
`totalHours = 2.5`, with the rounding characterisation holding there. -/
theorem C5_total_hours_witness :
    (clockOut "c6" 9000000 [openSessionNoHours]).1 =
      .ok (closeRecord openSessionNoHours 9000000) ∧
    (closeRecord openSessionNoHours 9000000).status = "completed" ∧
    (closeRecord openSessionNoHours 9000000).clockOutTime = some 9000000 ∧
    (closeRecord openSessionNoHours 9000000).totalHours =
      some (calculateHours openSessionNoHours.clockInTime 9000000) ∧
    calculateHours openSessionNoHours.clockInTime 9000000 * 100
      = ((jsRound (((9000000 - openSessionNoHours.clockInTime : Int) : ℚ)
          / 3600000 * 100) : ℤ) : ℚ) ∧
    |calculateHours openSessionNoHours.clockInTime 9000000
        - ((9000000 - openSessionNoHours.clockInTime : Int) : ℚ) / 3600000|
      ≤ 1 / 200 ∧
    calculateHours openSessionNoHours.clockInTime
      (openSessionNoHours.clockInTime + 9000000) = 5 / 2 :=
  C5_total_hours "c6" 9000000 [openSessionNoHours] openSessionNoHours
    (by decide) rfl rfl

/-- A stored open session whose status is `"late"`. -/
def lateOpenRecord : AttendanceRecord :=
  { id := "l1", employeeName := "Alice", department := "Sales Team",
    clockInTime := 36000000, clockOutTime := none, totalHours := none,
    status := "late", date := "2026-10-11" }

/-- C3 counterexample: the duplicate check matches only
`status === "active"`, so when the repository holds an open session with
status `"late"` for (Alice, today), a clock-in for the same employee and
day does NOT fail with a duplicate error — it succeeds and persists a
second session for that (employeeName, date). -/
theorem C3_late_not_blocking_counterexample :
    lateOpenRecord.status = "late" ∧
    lateOpenRecord.clockOutTime = none ∧
    clockIn "Alice" "Sales Team" ⟨37800000, ⟨10, 30, 0⟩, "2026-10-11"⟩ "id-2"
        [lateOpenRecord] =
      (ClockInResult.ok
        { id := "id-2", employeeName := "Alice", department := "Sales Team",
          clockInTime := 37800000, clockOutTime := none, totalHours := none,
          status := "active", date := "2026-10-11" },
       [lateOpenRecord,
        { id := "id-2", employeeName := "Alice", department := "Sales Team",
          clockInTime := 37800000, clockOutTime := none, totalHours := none,
          status := "active", date := "2026-10-11" }]) :=
  ⟨rfl, rfl, rfl⟩

/-- The session the clock-in route persists for the given input, instant
and generated id (status is forced to `"active"` by the storage layer). -/
def createdSession (name dept : String) (now : Instant) (fid : String) :
    AttendanceRecord :=
  { id := fid, employeeName := name, department := dept,
    clockInTime := now.millis, clockOutTime := none, totalHours := none,
    status := "active", date := now.date }

/-- C3 amended: the duplicate check matches an existing session with
status `"active"` only (an open `"late"` session does not block, see the
counterexample). Since the storage layer forces every newly persisted
session to status `"active"`, a valid clock-in fails with a duplicate
error carrying the existing session's id — persisting nothing — whenever
an open active session exists for (employeeName, today); a second
clock-in on the same day after a successful one fails that way; and once
that session is closed by clock-out, a new clock-in succeeds again. -/
theorem C3_duplicate_until_closed (name dept : String) (now now2 : Instant)
    (fid fid2 : String) (tOut : Int) (s : List AttendanceRecord)
    (r : AttendanceRecord)
    (hname : 1 ≤ name.length) (hdept : departments.contains dept = true)
    (hdate : now2.date = now.date) :
    (MemStorage.getActiveAttendanceRecord name now.date s = some r →
      clockIn name dept now fid s = (.duplicate r.id, s)) ∧
    (MemStorage.getActiveAttendanceRecord name now.date s = none →
      clockIn name dept now fid s =
        (.ok (createdSession name dept now fid),
         s ++ [createdSession name dept now fid])) ∧
    (MemStorage.getActiveAttendanceRecord name now.date s = none →
      clockIn name dept now2 fid2 (s ++ [createdSession name dept now fid]) =
        (.duplicate fid, s ++ [createdSession name dept now fid])) ∧
    (MemStorage.getActiveAttendanceRecord name now.date s = none →
     (∀ x ∈ s, x.id ≠ fid) →
      clockIn name dept now2 fid2
          (MemStorage.replaceById fid
            (closeRecord (createdSession name dept now fid) tOut)
            (s ++ [createdSession name dept now fid])) =
        (.ok (createdSession name dept now2 fid2),
         (s ++ [closeRecord (createdSession name dept now fid) tOut])
           ++ [createdSession name dept now2 fid2])) := by
  have hparse : clockInSchemaParse name dept = .ok ⟨name, dept⟩ := by
    unfold clockInSchemaParse
    rw [if_neg (by omega), if_pos hdept]
  refine ⟨?_, ?_, ?_, ?_⟩
  · intro hdup
    simp [clockIn, hparse, hdup]
  · intro hnone
    simp [clockIn, hparse, hnone, MemStorage.createAttendanceRecord,
      createdSession]
  · intro hnone
    have hfind : MemStorage.getActiveAttendanceRecord name now2.date
        (s ++ [createdSession name dept now fid])
        = some (createdSession name dept now fid) := by
      unfold MemStorage.getActiveAttendanceRecord at hnone ⊢
      rw [hdate, List.find?_append, hnone]
      simp [createdSession]
    simp only [clockIn, hparse]
    rw [hfind]
    simp [createdSession]
  · intro hnone hfresh
    have hrepl : MemStorage.replaceById fid
        (closeRecord (createdSession name dept now fid) tOut)
        (s ++ [createdSession name dept now fid])
        = s ++ [closeRecord (createdSession name dept now fid) tOut] := by
      unfold MemStorage.replaceById
      rw [List.map_append]
      congr 1
      · exact MemStorage.replaceById_of_absent fid _ s hfresh
      · simp [createdSession, closeRecord]
    rw [hrepl]
    have hfind : MemStorage.getActiveAttendanceRecord name now2.date
        (s ++ [closeRecord (createdSession name dept now fid) tOut]) = none := by
      unfold MemStorage.getActiveAttendanceRecord at hnone ⊢
      rw [hdate, List.find?_append, hnone]
      simp [createdSession, closeRecord]
    simp only [clockIn, hparse]
    rw [hfind]
    simp [MemStorage.createAttendanceRecord, createdSession]

/-- C3 amended, evaluated on an empty store: the first clock-in succeeds,
a second same-day clock-in fails with a duplicate error carrying the first
session's id, and after clocking the first session out a new clock-in
succeeds again. -/
theorem C3_duplicate_until_closed_witness :
    clockIn "Alice" "Sales Team" ⟨36000000, ⟨10, 0, 0⟩, "2026-10-11"⟩ "a1" [] =
      (.ok (createdSession "Alice" "Sales Team"
          ⟨36000000, ⟨10, 0, 0⟩, "2026-10-11"⟩ "a1"),
       [] ++ [createdSession "Alice" "Sales Team"
          ⟨36000000, ⟨10, 0, 0⟩, "2026-10-11"⟩ "a1"]) ∧
    clockIn "Alice" "Sales Team" ⟨40000000, ⟨11, 6, 40⟩, "2026-10-11"⟩ "a2"
        ([] ++ [createdSession "Alice" "Sales Team"
          ⟨36000000, ⟨10, 0, 0⟩, "2026-10-11"⟩ "a1"]) =
      (.duplicate "a1",
       [] ++ [createdSession "Alice" "Sales Team"
          ⟨36000000, ⟨10, 0, 0⟩, "2026-10-11"⟩ "a1"]) ∧
    clockIn "Alice" "Sales Team" ⟨40000000, ⟨11, 6, 40⟩, "2026-10-11"⟩ "a2"
        (MemStorage.replaceById "a1"
          (closeRecord (createdSession "Alice" "Sales Team"
            ⟨36000000, ⟨10, 0, 0⟩, "2026-10-11"⟩ "a1") 63000000)
          ([] ++ [createdSession "Alice" "Sales Team"
            ⟨36000000, ⟨10, 0, 0⟩, "2026-10-11"⟩ "a1"])) =
      (.ok (createdSession "Alice" "Sales Team"
          ⟨40000000, ⟨11, 6, 40⟩, "2026-10-11"⟩ "a2"),
       ([] ++ [closeRecord (createdSession "Alice" "Sales Team"
            ⟨36000000, ⟨10, 0, 0⟩, "2026-10-11"⟩ "a1") 63000000])
         ++ [createdSession "Alice" "Sales Team"
            ⟨40000000, ⟨11, 6, 40⟩, "2026-10-11"⟩ "a2"]) := by
  have h := C3_duplicate_until_closed "Alice" "Sales Team"
    ⟨36000000, ⟨10, 0, 0⟩, "2026-10-11"⟩ ⟨40000000, ⟨11, 6, 40⟩, "2026-10-11"⟩
    "a1" "a2" 63000000 []
    (createdSession "Alice" "Sales Team"
      ⟨36000000, ⟨10, 0, 0⟩, "2026-10-11"⟩ "a1")
    (by decide) (by decide) rfl
  exact ⟨h.2.1 rfl, h.2.2.1 rfl,
    h.2.2.2 rfl (fun x hx => absurd hx (List.not_mem_nil x))⟩

/-- C8 counterexample: `lateToday` does not count a late session
"regardless of whether it has since been closed": clock-out rewrites the
status to `"completed"`, so after closing the (open, late) session the
statistic drops from 1 to 0. -/
theorem C8_late_closed_counterexample :
    (MemStorage.getAttendanceStatistics "2026-10-11" [lateOpenRecord]).lateToday
      = 1 ∧
    (clockOut "l1" 63000000 [lateOpenRecord]).2
      = [closeRecord lateOpenRecord 63000000] ∧
    (closeRecord lateOpenRecord 63000000).status = "completed" ∧
    (MemStorage.getAttendanceStatistics "2026-10-11"
        (clockOut "l1" 63000000 [lateOpenRecord]).2).lateToday = 0 :=
  ⟨rfl, rfl, rfl, rfl⟩

/-- Example day: three sessions with distinct names — one `active`, one
`late` (still open), one `completed` with 8 stored hours. -/
def exampleDayRecords : List AttendanceRecord :=
  [{ id := "x1", employeeName := "A", department := "Other",
     clockInTime := 32400000, clockOutTime := none, totalHours := none,
     status := "active", date := "2026-10-11" },
   { id := "x2", employeeName := "B", department := "Other",
     clockInTime := 36000000, clockOutTime := none, totalHours := none,
     status := "late", date := "2026-10-11" },
   { id := "x3", employeeName := "C", department := "Other",
     clockInTime := 0, clockOutTime := some 28800000, totalHours := some 8,
     status := "completed", date := "2026-10-11" }]

/-- C8 amended: scoped to records with `date == today`, the statistics
return the number of distinct employee names, the count of records whose
CURRENT status is `"active"`, the count of records whose CURRENT status is
`"late"` (a record keeps counting while its stored status is late, whether
or not `clockOutTime` is present — but a session closed through clock-out
has status rewritten to `"completed"` and stops counting, see the
counterexample), and the mean of the present `totalHours` values rounded
to 1 decimal, 0 when none is present. On the example day the result is
(3, 1, 1, 8). -/
theorem C8_statistics_amended (today : String) (s : List AttendanceRecord) :
    (MemStorage.getAttendanceStatistics today s).totalEmployees
      = ((s.filter (fun r => r.date == today)).map
          (fun r => r.employeeName)).toFinset.card ∧
    (MemStorage.getAttendanceStatistics today s).currentlyActive
      = (s.filter (fun r => r.date == today && r.status == "active")).length ∧
    (MemStorage.getAttendanceStatistics today s).lateToday
      = (s.filter (fun r => r.date == today && r.status == "late")).length ∧
    (((s.filter (fun r => r.date == today)).filter
        (fun r => r.totalHours.isSome)).length = 0 →
      (MemStorage.getAttendanceStatistics today s).avgHoursToday = 0) ∧
    (0 < ((s.filter (fun r => r.date == today)).filter
        (fun r => r.totalHours.isSome)).length →
      (MemStorage.getAttendanceStatistics today s).avgHoursToday
        = ((jsRound ((((s.filter (fun r => r.date == today)).filter
              (fun r => r.totalHours.isSome)).map
                (fun r => r.totalHours.getD 0)).sum
            / (((s.filter (fun r => r.date == today)).filter
              (fun r => r.totalHours.isSome)).length : ℚ) * 10) : ℤ) : ℚ) / 10) ∧
    MemStorage.getAttendanceStatistics "2026-10-11" exampleDayRecords
      = ⟨3, 1, 1, 8⟩ := by
  refine ⟨?_, ?_, ?_, ?_, ?_, ?_⟩
  · simp only [MemStorage.getAttendanceStatistics]
    exact (List.card_toFinset _).symm
  · simp only [MemStorage.getAttendanceStatistics]
    rw [List.filter_filter]
    congr 1
    apply List.filter_congr
    intro x _
    exact Bool.and_comm _ _
  · simp only [MemStorage.getAttendanceStatistics]
    rw [List.filter_filter]
    congr 1
    apply List.filter_congr
    intro x _
    exact Bool.and_comm _ _
  · intro h0
    simp only [MemStorage.getAttendanceStatistics, h0]
    norm_num [jsRound]
  · intro hpos
    simp only [MemStorage.getAttendanceStatistics]
    rw [if_pos hpos, foldl_add_eq_sum]
    norm_num
  · norm_num [MemStorage.getAttendanceStatistics, jsRound, exampleDayRecords]
    decide

/-- C8 amended, evaluated on the example day. -/
theorem C8_statistics_amended_witness :
    (MemStorage.getAttendanceStatistics "2026-10-11"
        exampleDayRecords).totalEmployees
      = ((exampleDayRecords.filter (fun r => r.date == "2026-10-11")).map
          (fun r => r.employeeName)).toFinset.card ∧
    (MemStorage.getAttendanceStatistics "2026-10-11"
        exampleDayRecords).currentlyActive
      = (exampleDayRecords.filter
          (fun r => r.date == "2026-10-11" && r.status == "active")).length ∧
    (MemStorage.getAttendanceStatistics "2026-10-11"
        exampleDayRecords).lateToday
      = (exampleDayRecords.filter
          (fun r => r.date == "2026-10-11" && r.status == "late")).length ∧
    (((exampleDayRecords.filter (fun r => r.date == "2026-10-11")).filter
        (fun r => r.totalHours.isSome)).length = 0 →
      (MemStorage.getAttendanceStatistics "2026-10-11"
          exampleDayRecords).avgHoursToday = 0) ∧
    (0 < ((exampleDayRecords.filter (fun r => r.date == "2026-10-11")).filter
        (fun r => r.totalHours.isSome)).length →
      (MemStorage.getAttendanceStatistics "2026-10-11"
          exampleDayRecords).avgHoursToday
        = ((jsRound ((((exampleDayRecords.filter
              (fun r => r.date == "2026-10-11")).filter
              (fun r => r.totalHours.isSome)).map
                (fun r => r.totalHours.getD 0)).sum
            / (((exampleDayRecords.filter
              (fun r => r.date == "2026-10-11")).filter
              (fun r => r.totalHours.isSome)).length : ℚ) * 10) : ℤ) : ℚ) / 10) ∧
    MemStorage.getAttendanceStatistics "2026-10-11" exampleDayRecords
      = ⟨3, 1, 1, 8⟩ :=
  C8_statistics_amended "2026-10-11" exampleDayRecords
